import Mathlib

/-!
# Verification of the bank-statement table parser and data shaping

A shallow embedding of the parsing and data-shaping logic of
`src/main.py` (function `extract_table_from_response`, the filter and
summary logic of `main`, and the temp-file lifecycle of
`create_excel_download_link`), with theorems settling the behavioural
claims about it.

Modelling conventions:
* Python strings are Lean `String`; the relevant Python string methods
  (`split`, `strip`, substring containment) are re-implemented below on
  `List Char` so that all proofs and evaluations stay in the kernel.
* The float produced by `astype(float)` is modelled as an exact rational
  (`ℚ`) computed by a decimal parser (`pyFloatOfString?`) faithful to
  the grammar of the Python `float` constructor on ordinary decimal
  notation (optional surrounding whitespace, optional sign, integer
  and/or fractional digits, optional exponent).  The special spellings
  `inf`/`nan` and digit underscores, irrelevant to amount cells, are not
  modelled and count as parse failures.
* The `ValueError` raised by `astype(float)` is modelled as
  `Except.error ExtractError.amountParseError`.
-/

/-- Splits a list of characters at every occurrence of `sep`, keeping
empty chunks, as the Python method `str.split(sep)` does.  The first
argument of the accumulator is the current chunk, reversed. -/
def splitCharAux (sep : Char) : List Char → List Char → List (List Char)
  | [], cur => [cur.reverse]
  | c :: rest, cur =>
      if c = sep then cur.reverse :: splitCharAux sep rest []
      else splitCharAux sep rest (c :: cur)

/-- Python `s.split(sep)` for a one-character separator. -/
def pySplit (sep : Char) (s : String) : List String :=
  (splitCharAux sep s.data []).map (fun l => ⟨l⟩)

/-- Characters treated as whitespace by Python `str.strip()`. -/
def isPyWhitespace (c : Char) : Bool :=
  c = ' ' || c = '\t' || c = '\n' || c = '\r' || c = '\x0b' || c = '\x0c'

/-- Removes the longest run of characters satisfying `p` from both ends
of the list: the common core of the Python `strip` variants. -/
def stripList (p : Char → Bool) (l : List Char) : List Char :=
  ((l.dropWhile p).reverse.dropWhile p).reverse

/-- Python `s.strip()`: trim whitespace from both ends. -/
def pyStrip (s : String) : String :=
  ⟨stripList isPyWhitespace s.data⟩

/-- Python `s.strip('|- ')` as used on candidate lines: trim pipes,
dashes and spaces from both ends. -/
def pyStripSet (s : String) : String :=
  ⟨stripList (fun c => c = '|' || c = '-' || c = ' ') s.data⟩

/-- Whether `pat` is an initial segment of `l`. -/
def startsWithList : List Char → List Char → Bool
  | [], _ => true
  | _ :: _, [] => false
  | p :: ps, c :: cs => p = c && startsWithList ps cs

/-- Python `pat in s` substring containment. -/
def containsStr (s pat : String) : Bool :=
  s.data.tails.any (fun t => startsWithList pat.data t)

/-- Python `c in s` for a single character. -/
def containsChar (s : String) (c : Char) : Bool :=
  s.data.contains c

/-- The cell list of a candidate line, from the comprehension
`[cell.strip() for cell in line.split('|') if cell.strip()]`:
split on the pipe, trim every cell, drop the cells that are empty
after trimming. -/
def pyCells (line : String) : List String :=
  ((pySplit '|' line).map pyStrip).filter (fun c => c != "")

/-- One transaction row of the extracted table.  The DataFrame columns
of the source are `Date`, `Concept`, `Amount (MXN)` and `Type`; the
spec calls the last one `category`.  The amount holds the numeric value
produced from the amount cell. -/
structure TransactionRecord where
  date : String
  concept : String
  amount : ℚ
  category : String
deriving DecidableEq

instance : Inhabited TransactionRecord := ⟨⟨"", "", 0, ""⟩⟩

/-- The loop body of `extract_table_from_response` in `src/main.py`:
state is `(start_parsing, table_data)`.  A line without a pipe is
ignored; a line containing the token `Date` sets `start_parsing` and is
skipped (`continue`); otherwise, once parsing has started and the line
is non-empty after stripping pipes, dashes and spaces, its cell list is
appended when it has exactly four cells. -/
def stepLine (st : Bool × List (List String)) (line : String) :
    Bool × List (List String) :=
  if containsChar line '|' then
    if containsStr line "Date" then (true, st.2)
    else if st.1 && (pyStripSet line != "") then
      if (pyCells line).length = 4 then (st.1, st.2 ++ [pyCells line]) else st
    else st
  else st

/-- The row-collection phase of `extract_table_from_response`, on an
already split line list. -/
def extractRowsLines (lines : List String) : List (List String) :=
  (lines.foldl stepLine (false, [])).2

/-- The row-collection phase of `extract_table_from_response`: split the
reply on newlines and run the loop. -/
def extractRows (response : String) : List (List String) :=
  extractRowsLines (pySplit '\n' response)

/-- Digit run to number, most significant first. -/
def digitsVal (l : List Char) : Nat :=
  l.foldl (fun n c => 10 * n + (c.toNat - 48)) 0

/-- Consume an optional leading sign; `true` means negative. -/
def splitSign : List Char → Bool × List Char
  | '+' :: rest => (false, rest)
  | '-' :: rest => (true, rest)
  | l => (false, l)

/-- Parse an unsigned decimal mantissa (`123`, `123.`, `123.45`, `.45`):
returns the digit value `n`, the number `scale` of fractional digits
(the mantissa value is `n / 10 ^ scale`) and the unconsumed characters. -/
def parseMantissa (l : List Char) : Option (ℕ × ℕ × List Char) :=
  let ip := l.takeWhile Char.isDigit
  let r1 := l.dropWhile Char.isDigit
  match r1 with
  | '.' :: r2 =>
      let fp := r2.takeWhile Char.isDigit
      let r3 := r2.dropWhile Char.isDigit
      if ip.isEmpty && fp.isEmpty then none
      else some (digitsVal (ip ++ fp), fp.length, r3)
  | _ => if ip.isEmpty then none else some (digitsVal ip, 0, r1)

/-- The rational `± (n / 10 ^ scale) * 10 ^ e`, assembled with a single
`mkRat` over machine-reducible `Nat`/`Int` arithmetic. -/
def ratOfParts (neg : Bool) (n scale : ℕ) (e : ℤ) : ℚ :=
  let num0 : ℕ := n * Nat.pow 10 e.toNat
  let num : ℤ := if neg then -(num0 : ℤ) else (num0 : ℤ)
  mkRat num (Nat.pow 10 (scale + (-e).toNat))

/-- The numeric conversion applied to each amount cell by
`astype(float)`, modelled exactly over `ℚ`: optional whitespace,
optional sign, decimal mantissa, optional `e`/`E` exponent; everything
else fails.  Returns `none` where the Python `float` constructor raises
`ValueError`. -/
def pyFloatOfString? (s : String) : Option ℚ :=
  let (neg, l1) := splitSign (stripList isPyWhitespace s.data)
  match parseMantissa l1 with
  | none => none
  | some (n, scale, rest) =>
      match rest with
      | [] => some (ratOfParts neg n scale 0)
      | c :: r1 =>
          if c = 'e' || c = 'E' then
            let (eneg, r2) := splitSign r1
            let ds := r2.takeWhile Char.isDigit
            let r3 := r2.dropWhile Char.isDigit
            if ds.isEmpty || !r3.isEmpty then none
            else
              some (ratOfParts neg n scale
                (if eneg then -(digitsVal ds : ℤ) else (digitsVal ds : ℤ)))
          else none

/-- `df['Amount (MXN)'].str.replace(',', '')`: remove every comma. -/
def removeCommas (s : String) : String :=
  ⟨s.data.filter (fun c => c != ',')⟩

/-- The failure mode of `extract_table_from_response`: `astype(float)`
raises on a non-numeric amount cell. -/
inductive ExtractError where
  | amountParseError
deriving DecidableEq

deriving instance DecidableEq for Except

/-- Build one record from one kept row (columns in the fixed order
Date, Concept, Amount, Type); the amount cell goes through comma
removal and numeric conversion. -/
def rowToRecord? (row : List String) : Option TransactionRecord :=
  match row with
  | [d, c, a, t] => (pyFloatOfString? (removeCommas a)).map (fun q => ⟨d, c, q, t⟩)
  | _ => none

/-- Convert every kept row, failing when any single conversion fails:
the columnwise `astype(float)` either converts the whole column or
raises. -/
def traverseRows : List (List String) → Option (List TransactionRecord)
  | [] => some []
  | r :: rs =>
      match rowToRecord? r, traverseRows rs with
      | some rec, some recs => some (rec :: recs)
      | _, _ => none

/-- `extract_table_from_response` of `src/main.py`: collect the kept
rows, then convert the amount column; a conversion failure aborts the
whole call with no partial result. -/
def extract_table_from_response (response : String) :
    Except ExtractError (List TransactionRecord) :=
  match traverseRows (extractRows response) with
  | some recs => Except.ok recs
  | none => Except.error ExtractError.amountParseError

/-- A header-marker line: a candidate line (it contains the pipe) that
contains the token `Date`.  In the loop, every such line sets
`start_parsing` and is skipped. -/
def isHeaderLine (line : String) : Bool :=
  containsChar line '|' && containsStr line "Date"

/-- The gate a line must pass, once parsing has started, to contribute a
row: it is a candidate line, it does not contain `Date`, it is non-empty
after stripping pipes, dashes and spaces, and its cell list has exactly
four cells. -/
def keepLine (line : String) : Bool :=
  containsChar line '|' && !containsStr line "Date" &&
    (pyStripSet line != "") && ((pyCells line).length == 4)

/-- Index of the first header-marker line, when one exists. -/
def headerIdx? : List String → Option ℕ
  | [] => none
  | l :: rest => if isHeaderLine l then some 0 else (headerIdx? rest).map (· + 1)

/-- The lines strictly after the first header-marker line (no line at
all when there is no header marker). -/
def postHeader (lines : List String) : List String :=
  match headerIdx? lines with
  | none => []
  | some h => lines.drop (h + 1)

/-- Models the filtering performed in `main` of `src/main.py`:
`mask = df['Type'].isin(selected_types)` followed by
`df_filtered = df[mask]`.  The value `date_range` obtained from the
date-range picker is bound in the source but never used in the mask, so
it is accepted and ignored here as well. -/
def applyFilters (selected_types : List String) (date_range : String × String)
    (records : List TransactionRecord) : List TransactionRecord :=
  records.filter (fun r => selected_types.contains r.category)

/-- Lexicographic character-code comparison, the order that ISO-format
date strings sort by; used only to state what the intended date filter
would do. -/
def lexLe : List Char → List Char → Bool
  | [], _ => true
  | _ :: _, [] => false
  | a :: as, b :: bs => if a = b then lexLe as bs else decide (a.toNat < b.toNat)

/-- String comparison via `lexLe`. -/
def strLe (a b : String) : Bool :=
  lexLe a.data b.data

/-- Modelled from the spec: the filter the presentation layer is
described to apply, a conjunction of category membership and
date-range membership.  The code in `src/main.py` applies only the
category half; this definition exists to state that divergence. -/
def specFilter (selected_types : List String) (date_range : String × String)
    (records : List TransactionRecord) : List TransactionRecord :=
  records.filter (fun r =>
    selected_types.contains r.category && strLe date_range.1 r.date &&
      strLe r.date date_range.2)

/-- `total_income = df[df['Type'] == 'Income']['Amount (MXN)'].sum()`. -/
def total_income (records : List TransactionRecord) : ℚ :=
  ((records.filter (fun r => r.category == "Income")).map TransactionRecord.amount).sum

/-- `total_expenses = df[df['Type'] == 'Expense']['Amount (MXN)'].sum()`. -/
def total_expenses (records : List TransactionRecord) : ℚ :=
  ((records.filter (fun r => r.category == "Expense")).map TransactionRecord.amount).sum

/-- `balance = total_income - total_expenses`. -/
def balance (records : List TransactionRecord) : ℚ :=
  total_income records - total_expenses records

/-- The file-system state visible to the export helper: the list of
paths currently existing on disk. -/
structure FsState where
  files : List String
deriving DecidableEq

/-- Models `create_excel_download_link` of `src/main.py`:
`tempfile.NamedTemporaryFile(delete=False)` creates the file on disk;
`df.to_excel` writes it and `open(tmp.name).read()` reads it back, and
either call may raise, modelled by the flags `writeOk` and `readOk`;
`os.unlink` then deletes the file.  There is no `try`/`finally` in the
source, so the `unlink` call is reached only when both prior steps
succeed; on an exception the `with` block merely closes the handle and
a `delete=False` temporary file stays on disk.  Returns the final
file-system state, paired with `some ()` when a link is returned and
`none` when the call raises. -/
def create_excel_download_link (tmpName : String) (writeOk readOk : Bool)
    (st : FsState) : FsState × Option Unit :=
  let st1 : FsState := ⟨st.files ++ [tmpName]⟩
  if writeOk then
    if readOk then (⟨st1.files.filter (fun f => f != tmpName)⟩, some ())
    else (st1, none)
  else (st1, none)

theorem step_header (st : Bool × List (List String)) (line : String)
    (h : isHeaderLine line = true) : stepLine st line = (true, st.2) := by
  unfold isHeaderLine at h
  rw [Bool.and_eq_true] at h
  unfold stepLine
  rw [if_pos h.1, if_pos h.2]

theorem step_not_header (acc : List (List String)) (line : String)
    (h : isHeaderLine line = false) :
    stepLine (false, acc) line = (false, acc) := by
  unfold isHeaderLine at h
  unfold stepLine
  by_cases h1 : containsChar line '|'
  · rw [Bool.and_eq_false_iff] at h
    have h2 : containsStr line "Date" = false := by
      cases h with
      | inl h => rw [h1] at h; cases h
      | inr h => exact h
    rw [if_pos h1, if_neg (by rw [h2]; exact Bool.false_ne_true)]
    simp
  · rw [if_neg (by rw [Bool.not_eq_true] at h1; rw [h1]; exact Bool.false_ne_true)]

theorem step_started (acc : List (List String)) (line : String) :
    stepLine (true, acc) line =
      (true, acc ++ if keepLine line then [pyCells line] else []) := by
  unfold stepLine keepLine
  by_cases h1 : containsChar line '|' <;>
    by_cases h2 : containsStr line "Date" <;>
      by_cases h3 : pyStripSet line = "" <;>
        by_cases h4 : (pyCells line).length = 4 <;>
          simp [h1, h2, h3, h4]

theorem foldl_step_started (lines : List String) (acc : List (List String)) :
    lines.foldl stepLine (true, acc) =
      (true, acc ++ (lines.filter keepLine).map pyCells) := by
  induction lines generalizing acc with
  | nil => simp
  | cons l rest ih =>
      rw [List.foldl_cons, step_started, ih, List.filter_cons]
      by_cases h : keepLine l
      · rw [if_pos h, if_pos h]
        simp
      · rw [if_neg h, if_neg h]
        simp

theorem headerIdx_cons_not (l : String) (rest : List String)
    (h : isHeaderLine l = false) :
    headerIdx? (l :: rest) = (headerIdx? rest).map (· + 1) := by
  unfold headerIdx?
  rw [if_neg (by rw [h]; exact Bool.false_ne_true)]
  rw [← headerIdx?.eq_def]

theorem postHeader_cons_not (l : String) (rest : List String)
    (h : isHeaderLine l = false) :
    postHeader (l :: rest) = postHeader rest := by
  unfold postHeader
  rw [headerIdx_cons_not l rest h]
  cases hidx : headerIdx? rest with
  | none => simp
  | some k => simp [List.drop_succ_cons]

theorem postHeader_cons_header (l : String) (rest : List String)
    (h : isHeaderLine l = true) :
    postHeader (l :: rest) = rest := by
  unfold postHeader headerIdx?
  rw [if_pos h]
  rfl

theorem extractRowsLines_eq (lines : List String) :
    extractRowsLines lines = ((postHeader lines).filter keepLine).map pyCells := by
  induction lines with
  | nil => rfl
  | cons l rest ih =>
      unfold extractRowsLines at ih ⊢
      by_cases h : isHeaderLine l
      · rw [List.foldl_cons, step_header _ _ h, foldl_step_started,
          postHeader_cons_header l rest h]
        simp
      · rw [Bool.not_eq_true] at h
        rw [List.foldl_cons, step_not_header _ _ h, ih,
          postHeader_cons_not l rest h]

theorem extractRows_eq (response : String) :
    extractRows response =
      ((postHeader (pySplit '\n' response)).filter keepLine).map pyCells :=
  extractRowsLines_eq (pySplit '\n' response)

theorem dropWhile_head?_false {p : Char → Bool} :
    ∀ (l : List Char) (x : Char), (l.dropWhile p).head? = some x → p x = false := by
  intro l
  induction l with
  | nil => intro x h; cases h
  | cons a t ih =>
      intro x h
      rw [List.dropWhile_cons] at h
      by_cases ha : p a
      · rw [if_pos ha] at h
        exact ih x h
      · rw [if_neg ha] at h
        cases h
        rw [Bool.not_eq_true] at ha
        exact ha

theorem dropWhile_eq_self_of_head {p : Char → Bool} (l : List Char)
    (h : ∀ x, l.head? = some x → p x = false) : l.dropWhile p = l := by
  cases l with
  | nil => rfl
  | cons a t =>
      rw [List.dropWhile_cons, if_neg]
      rw [h a rfl]
      exact Bool.false_ne_true

theorem dropWhile_idem {p : Char → Bool} (l : List Char) :
    (l.dropWhile p).dropWhile p = l.dropWhile p :=
  dropWhile_eq_self_of_head _ (fun x hx => dropWhile_head?_false l x hx)

theorem dropWhile_getLast? {p : Char → Bool} :
    ∀ l : List Char, l.dropWhile p ≠ [] → (l.dropWhile p).getLast? = l.getLast? := by
  intro l
  induction l with
  | nil => intro h; cases h rfl
  | cons a t ih =>
      intro h
      rw [List.dropWhile_cons] at h ⊢
      by_cases ha : p a
      · rw [if_pos ha] at h ⊢
        have ht : t ≠ [] := by
          intro h0
          rw [h0] at h
          exact h rfl
        obtain ⟨b, t', rfl⟩ := List.exists_cons_of_ne_nil ht
        rw [ih h, List.getLast?_cons_cons]
      · rw [if_neg ha]

theorem stripList_idem (p : Char → Bool) (l : List Char) :
    stripList p (stripList p l) = stripList p l := by
  have h1 : (stripList p l).dropWhile p = stripList p l := by
    apply dropWhile_eq_self_of_head
    intro x hx
    unfold stripList at hx
    rw [List.head?_reverse] at hx
    have hne : (l.dropWhile p).reverse.dropWhile p ≠ [] := by
      intro h0
      rw [h0] at hx
      cases hx
    rw [dropWhile_getLast? _ hne, List.getLast?_reverse] at hx
    exact dropWhile_head?_false l x hx
  have h2 : (stripList p l).reverse.dropWhile p = (stripList p l).reverse := by
    unfold stripList
    rw [List.reverse_reverse]
    exact dropWhile_idem _
  calc stripList p (stripList p l)
      = (((stripList p l).dropWhile p).reverse.dropWhile p).reverse := rfl
    _ = ((stripList p l).reverse.dropWhile p).reverse := by rw [h1]
    _ = (stripList p l).reverse.reverse := by rw [h2]
    _ = stripList p l := List.reverse_reverse _

theorem pyStrip_idem (s : String) : pyStrip (pyStrip s) = pyStrip s := by
  unfold pyStrip
  rw [stripList_idem]

theorem mem_pyCells (line c : String) (hc : c ∈ pyCells line) :
    c ≠ "" ∧ pyStrip c = c := by
  unfold pyCells at hc
  rw [List.mem_filter] at hc
  obtain ⟨hmem, hne⟩ := hc
  rw [List.mem_map] at hmem
  obtain ⟨raw, _, rfl⟩ := hmem
  exact ⟨by simpa using hne, pyStrip_idem raw⟩

theorem keepLine_cells_length (line : String) (h : keepLine line = true) :
    (pyCells line).length = 4 := by
  unfold keepLine at h
  rw [Bool.and_eq_true, Bool.and_eq_true, Bool.and_eq_true] at h
  simpa using h.2

theorem mem_extractRows (response : String) (row : List String)
    (hrow : row ∈ extractRows response) :
    ∃ line, line ∈ postHeader (pySplit '\n' response) ∧ keepLine line = true ∧
      row = pyCells line := by
  rw [extractRows_eq] at hrow
  rw [List.mem_map] at hrow
  obtain ⟨line, hline, rfl⟩ := hrow
  rw [List.mem_filter] at hline
  exact ⟨line, hline.1, hline.2, rfl⟩

/-- The shape invariant of every extracted row: exactly four cells,
each non-empty and invariant under a further whitespace trim. -/
theorem rows_inv (response : String) (row : List String)
    (hrow : row ∈ extractRows response) :
    row.length = 4 ∧ ∀ c ∈ row, c ≠ "" ∧ pyStrip c = c := by
  obtain ⟨line, _, hkeep, rfl⟩ := mem_extractRows response row hrow
  exact ⟨keepLine_cells_length line hkeep, fun c hc => mem_pyCells line c hc⟩

theorem exists_four {row : List String} (h : row.length = 4) :
    ∃ d c a t, row = [d, c, a, t] := by
  match row with
  | [d, c, a, t] => exact ⟨d, c, a, t, rfl⟩

theorem traverseRows_none (rows : List (List String)) :
    traverseRows rows = none ↔ ∃ row ∈ rows, rowToRecord? row = none := by
  induction rows with
  | nil => simp [traverseRows]
  | cons r rs ih =>
      unfold traverseRows
      cases hr : rowToRecord? r with
      | none =>
          cases traverseRows rs with
          | none =>
              simp only [List.mem_cons]
              exact ⟨fun _ => ⟨r, Or.inl rfl, hr⟩, fun _ => trivial⟩
          | some recs =>
              simp only [List.mem_cons]
              exact ⟨fun _ => ⟨r, Or.inl rfl, hr⟩, fun _ => trivial⟩
      | some rec =>
          cases hrs : traverseRows rs with
          | none =>
              simp only [List.mem_cons]
              constructor
              · intro _
                obtain ⟨row, hmem, hnone⟩ := ih.mp hrs
                exact ⟨row, Or.inr hmem, hnone⟩
              · intro _
                trivial
          | some recs =>
              simp only [List.mem_cons]
              constructor
              · intro h
                cases h
              · rintro ⟨row, hmem, hnone⟩
                cases hmem with
                | inl he =>
                    rw [he, hr] at hnone
                    cases hnone
                | inr hmem =>
                    have h0 : traverseRows rs = none := ih.mpr ⟨row, hmem, hnone⟩
                    rw [h0] at hrs
                    cases hrs

theorem traverseRows_zip (rows : List (List String)) (recs : List TransactionRecord)
    (h : traverseRows rows = some recs) :
    recs.length = rows.length ∧
      ∀ q ∈ recs.zip rows, rowToRecord? q.2 = some q.1 := by
  induction rows generalizing recs with
  | nil =>
      unfold traverseRows at h
      cases h
      simp
  | cons r rs ih =>
      unfold traverseRows at h
      cases hr : rowToRecord? r with
      | none => rw [hr] at h; cases h
      | some rec =>
          rw [hr] at h
          cases hrs : traverseRows rs with
          | none => rw [hrs] at h; cases h
          | some recs2 =>
              rw [hrs] at h
              cases h
              obtain ⟨hlen, hall⟩ := ih recs2 hrs
              refine ⟨by simp [hlen], ?_⟩
              intro q hq
              rw [List.zip_cons_cons, List.mem_cons] at hq
              cases hq with
              | inl he => rw [he]; exact hr
              | inr hq => exact hall q hq

example : pySplit '|' "|---|---|---|---|" = ["", "---", "---", "---", "---", ""] := by decide

example : pyCells "|---|---|---|---|" = ["---", "---", "---", "---"] := by decide

example : pyCells "| 2024-11-01 | RENTA DEPTO CHAPULTEPEC | 12,345.00 | Expense |" =
    ["2024-11-01", "RENTA DEPTO CHAPULTEPEC", "12,345.00", "Expense"] := by decide

example : pyStripSet "|---|---|---|---|" = "" := by decide

example : pyFloatOfString? "1234.50" = some (mkRat 2469 2) := by decide

example : pyFloatOfString? (removeCommas "12,345.00") = some (12345 : ℚ) := by decide

example : pyFloatOfString? "-1.5e2" = some (-150 : ℚ) := by decide

example : pyFloatOfString? " .5 " = some (mkRat 1 2) := by decide

example : pyFloatOfString? "1e" = none := by decide

example : pyFloatOfString? "---" = none := by decide

example :
    extract_table_from_response
      "| Date | Concept | Amount (MXN) | Type |\n| 2024-11-01 | RENTA DEPTO CHAPULTEPEC | 12,345.00 | Expense |" =
    Except.ok [⟨"2024-11-01", "RENTA DEPTO CHAPULTEPEC", (12345 : ℚ), "Expense"⟩] := by decide

theorem rowToRecord?_four (d c a t : String) :
    rowToRecord? [d, c, a, t] =
      (pyFloatOfString? (removeCommas a)).map (fun q => ⟨d, c, q, t⟩) := rfl

theorem rowToRecord?_none_iff (d c a t : String) :
    rowToRecord? [d, c, a, t] = none ↔
      pyFloatOfString? (removeCommas a) = none := by
  rw [rowToRecord?_four]
  exact Option.map_eq_none'

theorem postHeader_subset (lines : List String) :
    ∀ x ∈ postHeader lines, x ∈ lines := by
  intro x hx
  unfold postHeader at hx
  cases hidx : headerIdx? lines with
  | none =>
      rw [hidx] at hx
      cases hx
  | some k =>
      rw [hidx] at hx
      exact List.drop_subset _ _ hx

theorem filter_idem {α : Type} (q : α → Bool) (l : List α) :
    (l.filter q).filter q = l.filter q := by
  induction l with
  | nil => rfl
  | cons a t ih =>
      rw [List.filter_cons]
      by_cases h : q a
      · rw [if_pos h, List.filter_cons, if_pos h, ih]
      · rw [if_neg h, ih]

theorem removeCommas_idem (s : String) :
    removeCommas (removeCommas s) = removeCommas s := by
  unfold removeCommas
  congr 1
  exact filter_idem _ _

/-- C3 (confirmed).  The parser fails with `AmountParseError` exactly
when some kept four-cell row has an amount cell that is non-numeric
after comma removal; modelled with `Except`, a failing call returns no
record list at all, so nothing partial reaches the display. -/
theorem claim_C3_error_iff (response : String) :
    extract_table_from_response response =
        Except.error ExtractError.amountParseError ↔
      ∃ d c a t, [d, c, a, t] ∈ extractRows response ∧
        pyFloatOfString? (removeCommas a) = none := by
  unfold extract_table_from_response
  cases htr : traverseRows (extractRows response) with
  | some recs =>
      constructor
      · intro h
        exact Except.noConfusion h
      · rintro ⟨d, c, a, t, hmem, hbad⟩
        have hnone : traverseRows (extractRows response) = none :=
          (traverseRows_none _).mpr
            ⟨[d, c, a, t], hmem, (rowToRecord?_none_iff d c a t).mpr hbad⟩
        rw [hnone] at htr
        cases htr
  | none =>
      constructor
      · intro _
        obtain ⟨row, hmem, hnone⟩ := (traverseRows_none _).mp htr
        obtain ⟨hlen, _⟩ := rows_inv response row hmem
        obtain ⟨d, c, a, t, rfl⟩ := exists_four hlen
        exact ⟨d, c, a, t, hmem, (rowToRecord?_none_iff d c a t).mp hnone⟩
      · intro _
        rfl

/-- C3 witness: a reply whose kept row has the amount cell `abc`
aborts with `AmountParseError`. -/
theorem claim_C3_witness :
    extract_table_from_response
        "| Date | Concept | Amount (MXN) | Type |\n| 2024-11-01 | X | abc | Income |" =
      Except.error ExtractError.amountParseError :=
  (claim_C3_error_iff _).mpr ⟨"2024-11-01", "X", "abc", "Income", by decide, by decide⟩

/-- C4 counterexample.  The claim presents the pure separator line
`|---|---|---|---|` as a line whose trimmed non-empty cell count is not
exactly four; in fact splitting it on the pipe and trimming yields
exactly the four cells `---`, so it is not an instance of the
cell-count filter (it is dropped by the `strip('|- ')` emptiness check
instead). -/
theorem claim_C4_counterexample :
    (pyCells "|---|---|---|---|").length = 4 ∧
    pyStripSet "|---|---|---|---|" = "" := by decide

/-- C4 as amended: every line whose cell count is not exactly four is
dropped without raising (no extracted row ever comes from it); the pure
separator line in fact has four cells but is likewise dropped, by the
pipe/dash/space strip check; a reply whose only post-header line is
that separator parses to the empty record set without raising. -/
theorem claim_C4_amended :
    (∀ line : String, (pyCells line).length ≠ 4 → keepLine line = false) ∧
    (∀ response row, row ∈ extractRows response → row.length = 4) ∧
    extract_table_from_response
        "| Date | Concept | Amount (MXN) | Type |\n|---|---|---|---|" =
      Except.ok [] := by
  refine ⟨?_, ?_, by decide⟩
  · intro line h
    simp [keepLine, h]
  · intro response row hrow
    exact (rows_inv response row hrow).1

/-- C4 witness: a two-cell line fails the gate, and a kept row of a
concrete parse has length four. -/
theorem claim_C4_witness :
    (pyCells "| a | b |").length ≠ 4 ∧ keepLine "| a | b |" = false ∧
    (["a", "b", "1.0", "c"] ∈ extractRows "| Date |\n| a | b | 1.0 | c |") ∧
    (["a", "b", "1.0", "c"] : List String).length = 4 :=
  ⟨by decide, claim_C4_amended.1 "| a | b |" (by decide), by decide,
    claim_C4_amended.2.1 "| Date |\n| a | b | 1.0 | c |" ["a", "b", "1.0", "c"] (by decide)⟩

/-- C5 (confirmed).  Any block of lines containing no header-marker
line — in particular all candidate lines before the header marker,
whatever their content, four-cell lines included — contributes nothing:
the parse of the whole equals the parse of the rest. -/
theorem claim_C5_preheader_ignored (pre rest : List String)
    (hpre : ∀ l ∈ pre, isHeaderLine l = false) :
    extractRowsLines (pre ++ rest) = extractRowsLines rest := by
  revert hpre
  induction pre with
  | nil =>
      intro _
      rfl
  | cons l pre' ih =>
      intro hpre
      have hl := hpre l (List.mem_cons_self l pre')
      rw [List.cons_append]
      unfold extractRowsLines
      rw [List.foldl_cons, step_not_header _ _ hl]
      exact ih (fun x hx => hpre x (List.mem_cons_of_mem l hx))

/-- C5 witness: a pre-header line that itself splits into four cells is
ignored. -/
theorem claim_C5_witness :
    (∀ l ∈ ["| 2024-01-01 | preamble | 1.00 | Income |"], isHeaderLine l = false) ∧
    extractRowsLines (["| 2024-01-01 | preamble | 1.00 | Income |"] ++
        ["| Date | Concept | Amount (MXN) | Type |",
          "| 2024-02-02 | RENT | 2.00 | Expense |"]) =
      extractRowsLines ["| Date | Concept | Amount (MXN) | Type |",
        "| 2024-02-02 | RENT | 2.00 | Expense |"] :=
  ⟨by decide, claim_C5_preheader_ignored _ _ (by decide)⟩

/-- C9 (confirmed).  Every row produced by the row-collection phase has
exactly four fields, each non-empty and unchanged by a further
whitespace trim. -/
theorem claim_C9_invariant (response : String) (row : List String)
    (hrow : row ∈ extractRows response) :
    row.length = 4 ∧ ∀ c ∈ row, c ≠ "" ∧ pyStrip c = c :=
  rows_inv response row hrow

/-- C9 witness at a concrete parse. -/
theorem claim_C9_witness :
    (["2024-11-01", "RENT", "12,345.00", "Expense"] ∈
        extractRows
          "| Date | Concept | Amount (MXN) | Type |\n| 2024-11-01 | RENT | 12,345.00 | Expense |") ∧
    (["2024-11-01", "RENT", "12,345.00", "Expense"] : List String).length = 4 ∧
    (∀ c ∈ (["2024-11-01", "RENT", "12,345.00", "Expense"] : List String),
      c ≠ "" ∧ pyStrip c = c) := by
  have h := claim_C9_invariant
    "| Date | Concept | Amount (MXN) | Type |\n| 2024-11-01 | RENT | 12,345.00 | Expense |"
    ["2024-11-01", "RENT", "12,345.00", "Expense"] (by decide)
  exact ⟨by decide, h.1, h.2⟩

/-- C10 (confirmed).  Any candidate line containing the token `Date` —
the header or any later data row whose text happens to contain `Date` —
is discarded: it never passes the keep gate, every extracted row comes
from a line without `Date`, and a concrete reply whose data row
mentions `Date` parses to the empty record set. -/
theorem claim_C10_date_lines :
    (∀ line : String, containsStr line "Date" = true → keepLine line = false) ∧
    (∀ response row, row ∈ extractRows response →
      ∃ line, line ∈ pySplit '\n' response ∧ row = pyCells line ∧
        containsStr line "Date" = false) ∧
    extract_table_from_response
        "| Date | Concept | Amount (MXN) | Type |\n| 2024-11-01 | Date of payment | 5.00 | Income |" =
      Except.ok [] := by
  refine ⟨?_, ?_, by decide⟩
  · intro line h
    simp [keepLine, h]
  · intro response row hrow
    obtain ⟨line, hline, hkeep, rfl⟩ := mem_extractRows response row hrow
    refine ⟨line, postHeader_subset _ line hline, rfl, ?_⟩
    unfold keepLine at hkeep
    rw [Bool.and_eq_true, Bool.and_eq_true, Bool.and_eq_true] at hkeep
    have h2 := hkeep.1.1.2
    rwa [Bool.not_eq_true'] at h2

/-- C10 witness: a data row without `Date` is traced back to its line. -/
theorem claim_C10_witness :
    (["2024-11-01", "x", "5.00", "Income"] ∈
        extractRows "| Date | Concept | Amount (MXN) | Type |\n| 2024-11-01 | x | 5.00 | Income |") ∧
    (∃ line, line ∈ pySplit '\n'
        "| Date | Concept | Amount (MXN) | Type |\n| 2024-11-01 | x | 5.00 | Income |" ∧
      ["2024-11-01", "x", "5.00", "Income"] = pyCells line ∧
      containsStr line "Date" = false) :=
  ⟨by decide, claim_C10_date_lines.2.1
    "| Date | Concept | Amount (MXN) | Type |\n| 2024-11-01 | x | 5.00 | Income |"
    ["2024-11-01", "x", "5.00", "Income"] (by decide)⟩

/-- C1 counterexample.  Both post-header candidate lines below split
into exactly four non-empty trimmed cells, so the claim requires a
record for each; the code produces none: the first contains the token
`Date` (in its concept cell) and is skipped by the header test, the
second consists only of pipes, dashes and spaces and is dropped by the
`strip('|- ')` emptiness test. -/
theorem claim_C1_counterexample :
    (pyCells "| 2024-11-01 | Date fee | 5.00 | Income |").length = 4 ∧
    (pyCells "|-|-|-|-|").length = 4 ∧
    headerIdx? (pySplit '\n'
        "| Date | Concept | Amount (MXN) | Type |\n| 2024-11-01 | Date fee | 5.00 | Income |\n|-|-|-|-|") =
      some 0 ∧
    extract_table_from_response
        "| Date | Concept | Amount (MXN) | Type |\n| 2024-11-01 | Date fee | 5.00 | Income |\n|-|-|-|-|" =
      Except.ok [] := by decide

/-- C1 as amended: after the header marker, the lines that produce
records are exactly those passing the full keep gate — containing the
pipe, not containing `Date`, non-empty after stripping pipes, dashes
and spaces, and splitting into exactly four non-empty trimmed cells —
and on a successful parse the records correspond one-to-one, in order,
to those lines, with date, concept and category equal to the first,
second and fourth cells and the amount the parsed value of the comma-
stripped third cell. -/
theorem claim_C1_amended (response : String) (h : ℕ)
    (recs : List TransactionRecord)
    (hh : headerIdx? (pySplit '\n' response) = some h)
    (hok : extract_table_from_response response = Except.ok recs) :
    recs.length = (((pySplit '\n' response).drop (h + 1)).filter keepLine).length ∧
    ∀ q ∈ recs.zip (((pySplit '\n' response).drop (h + 1)).filter keepLine),
      ∃ d c a t, pyCells q.2 = [d, c, a, t] ∧ q.1.date = d ∧ q.1.concept = c ∧
        pyFloatOfString? (removeCommas a) = some q.1.amount ∧
        q.1.category = t := by
  have hpost : postHeader (pySplit '\n' response) =
      (pySplit '\n' response).drop (h + 1) := by
    unfold postHeader
    rw [hh]
  have htrav : traverseRows (extractRows response) = some recs := by
    unfold extract_table_from_response at hok
    cases htr : traverseRows (extractRows response) with
    | some recs2 =>
        rw [htr] at hok
        cases hok
        rfl
    | none =>
        rw [htr] at hok
        cases hok
  have hrows : extractRows response =
      (((pySplit '\n' response).drop (h + 1)).filter keepLine).map pyCells := by
    rw [extractRows_eq, hpost]
  obtain ⟨hlen, hall⟩ := traverseRows_zip _ _ htrav
  rw [hrows] at hlen hall
  constructor
  · rw [hlen, List.length_map]
  · intro q hq
    have hq2 : (q.1, pyCells q.2) ∈
        recs.zip ((((pySplit '\n' response).drop (h + 1)).filter keepLine).map pyCells) := by
      rw [List.zip_map_right]
      exact List.mem_map.mpr ⟨q, hq, rfl⟩
    have hrec := hall _ hq2
    have hlen4 : (pyCells q.2).length = 4 := by
      have hq_mem := (List.of_mem_zip hq).2
      rw [List.mem_filter] at hq_mem
      exact keepLine_cells_length _ hq_mem.2
    obtain ⟨d, c, a, t, hrow⟩ := exists_four hlen4
    rw [hrow, rowToRecord?_four] at hrec
    cases hpf : pyFloatOfString? (removeCommas a) with
    | none =>
        rw [hpf] at hrec
        cases hrec
    | some v =>
        rw [hpf] at hrec
        rw [Option.map_some', Option.some.injEq] at hrec
        refine ⟨d, c, a, t, hrow, ?_, ?_, ?_, ?_⟩
        · rw [← hrec]
        · rw [← hrec]
        · rw [← hrec]
          exact hpf
        · rw [← hrec]

/-- C1 witness: one good data line after the header yields exactly the
matching record. -/
theorem claim_C1_amended_witness :
    headerIdx? (pySplit '\n'
        "| Date | Concept | Amount (MXN) | Type |\n| 2024-11-01 | RENTA DEPTO CHAPULTEPEC | 12,345.00 | Expense |") =
      some 0 ∧
    extract_table_from_response
        "| Date | Concept | Amount (MXN) | Type |\n| 2024-11-01 | RENTA DEPTO CHAPULTEPEC | 12,345.00 | Expense |" =
      Except.ok [⟨"2024-11-01", "RENTA DEPTO CHAPULTEPEC", (12345 : ℚ), "Expense"⟩] ∧
    (([⟨"2024-11-01", "RENTA DEPTO CHAPULTEPEC", (12345 : ℚ), "Expense"⟩] :
        List TransactionRecord).length =
      (((pySplit '\n'
        "| Date | Concept | Amount (MXN) | Type |\n| 2024-11-01 | RENTA DEPTO CHAPULTEPEC | 12,345.00 | Expense |").drop
          (0 + 1)).filter keepLine).length ∧
    ∀ q ∈ ([⟨"2024-11-01", "RENTA DEPTO CHAPULTEPEC", (12345 : ℚ), "Expense"⟩] :
        List TransactionRecord).zip
          (((pySplit '\n'
            "| Date | Concept | Amount (MXN) | Type |\n| 2024-11-01 | RENTA DEPTO CHAPULTEPEC | 12,345.00 | Expense |").drop
              (0 + 1)).filter keepLine),
      ∃ d c a t, pyCells q.2 = [d, c, a, t] ∧ q.1.date = d ∧ q.1.concept = c ∧
        pyFloatOfString? (removeCommas a) = some q.1.amount ∧
        q.1.category = t) :=
  ⟨by decide, by decide,
    claim_C1_amended
      "| Date | Concept | Amount (MXN) | Type |\n| 2024-11-01 | RENTA DEPTO CHAPULTEPEC | 12,345.00 | Expense |"
      0 [⟨"2024-11-01", "RENTA DEPTO CHAPULTEPEC", (12345 : ℚ), "Expense"⟩]
      (by decide) (by decide)⟩

/-- C2 (code bug).  The code builds the mask from the category column
only — `mask = df['Type'].isin(selected_types)` — and never uses the
selected date range, so a record whose category is selected but whose
date lies outside the range is kept and exported; the intended filter
described by the spec (`specFilter`) would drop it. -/
theorem claim_C2_code_bug :
    applyFilters ["Income"] ("2024-02-01", "2024-03-01")
        [⟨"2024-01-01", "RENT", 100, "Income"⟩] =
      [⟨"2024-01-01", "RENT", 100, "Income"⟩] ∧
    strLe "2024-02-01" "2024-01-01" = false ∧
    specFilter ["Income"] ("2024-02-01", "2024-03-01")
        [⟨"2024-01-01", "RENT", 100, "Income"⟩] = [] := by decide

/-- C6 counterexample.  When serialization raises (`writeOk = false`,
modelling `df.to_excel` failing) the temporary file is still on disk
after the call, and likewise when reading back raises: deletion does
not happen on all exit paths. -/
theorem claim_C6_counterexample :
    (create_excel_download_link "tmp.xlsx" false true ⟨[]⟩).1.files = ["tmp.xlsx"] ∧
    (create_excel_download_link "tmp.xlsx" false true ⟨[]⟩).2 = none ∧
    (create_excel_download_link "tmp.xlsx" true false ⟨[]⟩).1.files = ["tmp.xlsx"] := by
  decide

/-- C6 as amended: on the successful path the temporary file is deleted
once the byte buffer has been read (the file-system state is restored),
but on every error path — serialization or read-back raising — the file
survives the operation. -/
theorem claim_C6_amended (tmpName : String) (st : FsState)
    (hfresh : tmpName ∉ st.files) :
    (create_excel_download_link tmpName true true st).1 = st ∧
    ∀ w r : Bool, (w = false ∨ r = false) →
      tmpName ∈ (create_excel_download_link tmpName w r st).1.files := by
  constructor
  · have h1 : st.files.filter (fun f => f != tmpName) = st.files := by
      apply List.filter_eq_self.mpr
      intro a ha
      rw [bne_iff_ne]
      intro he
      rw [he] at ha
      exact hfresh ha
    have h2 : [tmpName].filter (fun f => f != tmpName) = [] := by simp
    show FsState.mk ((st.files ++ [tmpName]).filter (fun f => f != tmpName)) = st
    rw [List.filter_append, h1, h2, List.append_nil]
  · intro w r hwr
    cases w <;> cases r <;> simp_all [create_excel_download_link]

/-- C6 witness at a concrete starting state. -/
theorem claim_C6_witness :
    ("tmp.xlsx" ∉ (FsState.mk ["statement.pdf"]).files) ∧
    (create_excel_download_link "tmp.xlsx" true true ⟨["statement.pdf"]⟩).1 =
      ⟨["statement.pdf"]⟩ ∧
    (∀ w r : Bool, (w = false ∨ r = false) →
      "tmp.xlsx" ∈ (create_excel_download_link "tmp.xlsx" w r
        ⟨["statement.pdf"]⟩).1.files) := by
  have h := claim_C6_amended "tmp.xlsx" ⟨["statement.pdf"]⟩ (by decide)
  exact ⟨by decide, h.1, h.2⟩

/-- C7 (confirmed).  A reply with no table parses to the empty record
set, and on the empty record set total income, total expenses and
balance are all zero, none of the three computations failing (they are
total functions here). -/
theorem claim_C7_empty_totals :
    extract_table_from_response "The statement contains no transactions." =
      Except.ok [] ∧
    total_income [] = 0 ∧ total_expenses [] = 0 ∧ balance [] = 0 := by
  refine ⟨by decide, ?_, ?_, ?_⟩ <;>
    simp [total_income, total_expenses, balance]

/-- C8 (confirmed).  Amount parsing is idempotent under comma removal:
removing commas twice parses as removing them once, and both
`1,234.50` and `1234.50` parse to `2469/2 = 1234.50`. -/
theorem claim_C8_idempotent :
    (∀ s : String,
      pyFloatOfString? (removeCommas (removeCommas s)) =
        pyFloatOfString? (removeCommas s)) ∧
    pyFloatOfString? (removeCommas "1,234.50") = some (mkRat 2469 2) ∧
    pyFloatOfString? (removeCommas "1234.50") = some (mkRat 2469 2) := by
  refine ⟨?_, by decide, by decide⟩
  intro s
  rw [removeCommas_idem]
